import Mathlib

/-!
Shallow embedding of `lib/munin_vt.py` (the munin VirusTotal client) and of the
claims about it.

Modelling conventions:
* Python dictionaries coming from the VirusTotal JSON API are embedded as
  structures whose fields are `Option`-typed: `none` models an absent key, and
  a key access on an absent key models a raised `KeyError`.
* The big `try/.../except/finally: return info` of
  `processVirustotalSampleInfo` is embedded as a sequence of steps, each of
  type `Info → Option Info`; the first step that returns `none` (raises)
  aborts the remaining steps and the record assembled so far is returned
  (the `finally` block).
* HTTP traffic is embedded by passing the scripted responses of the external
  service as explicit arguments; `response.ok` is `status_code < 400`
  (the `requests` library's definition).
* Machine integers are embedded as `Nat`/`Int` (no overflow is possible on
  Python ints).  `math.log`/`round` in `convertSize` operate on IEEE-754
  doubles; they are embedded with the exact integer base-1024 logarithm and
  exact decimal half-even rounding, and every theorem that inspects a
  rendered size keeps to `b < 1024 ^ 4`, where the double computation is
  provably exact (see the comments on `logIndex` and `pyRound2Scaled` for
  the divergence bands above that and how each theorem avoids them).
* `datetime.utcfromtimestamp` raises outside the years 1..9999; the
  timestamp steps are fallible accordingly.
-/

/-- Replaces every occurrence of the character `c` by `d` in `s`.  Both
`.replace("\\", "/")` and `.replace(";", "_")` in the source replace one
single character by another, which this captures. -/
def strMapChar (c d : Char) (s : String) : String :=
  String.mk (s.data.map fun x => if x = c then d else x)

/-- Suffix of `s` after the last `'/'` (the whole of `s` when it has no
`'/'`): this is exactly POSIX `os.path.basename`. -/
def basenameStr (s : String) : String :=
  String.mk (s.data.foldl (fun acc ch => if ch = '/' then [] else acc ++ [ch]) [])

/-- Embeds `get_crossplatfrom_basename` (munin_vt.py line 199):
`os.path.basename(path.replace("\\", "/"))`. -/
def get_crossplatfrom_basename (path : String) : String :=
  basenameStr (strMapChar '\\' '/' path)

/-- Is `needle` a contiguous substring of `hay`?  Embeds Python's
`needle in hay` on strings. -/
def charsContain (needle : List Char) : List Char → Bool
  | [] => needle.isEmpty
  | c :: rest => needle.isPrefixOf (c :: rest) || charsContain needle rest

/-- String-level wrapper for `charsContain`. -/
def strContains (needle hay : String) : Bool :=
  charsContain needle.data hay.data

/-- Embeds `uniqList` (munin_vt.py line 95): `list(set(listx))`.  CPython's
set iteration order is implementation defined; the embedding fixes the
first-occurrence order.  Every theorem below that inspects a deduplicated
list does so on an input whose deduplication has at most one element, where
every order agrees. -/
def uniqList (listx : List String) : List String :=
  listx.eraseDups

/-- Units tuple of `convertSize` (munin_vt.py line 163). -/
def size_name : List String :=
  ["B", "KB", "MB", "GB", "TB", "PB", "EB", "ZB", "YB"]

/-- Exact half-even rounding of the rational number `b * 100 / p` to an
integer: embeds `round(size_bytes / p, 2)` (the rounded value scaled by
100), Python's `round` being round-half-to-even.  Faithful wherever the
double `size_bytes / p` is exact — in particular whenever `b < 2 ^ 53` and
`p` is the power `1024 ^ i`, since the quotient then needs at most 53
mantissa bits and CPython's `round` performs correctly-rounded half-even
decimal rounding of the double's exact value.  Theorems below assert
rendered strings only for `b < 1024 ^ 4`, inside that range. -/
def pyRound2Scaled (b p : Nat) : Nat :=
  let a := b * 100
  let q := a / p
  let r := a % p
  if 2 * r < p then q
  else if p < 2 * r then q + 1
  else if q % 2 = 0 then q else q + 1

/-- Renders the scaled-by-100 value `n` the way Python's `"%s" % s` renders
the float `n / 100`: trailing zeros trimmed, but at least one fractional
digit (`150 ↦ "1.5"`, `100 ↦ "1.0"`, `105 ↦ "1.05"`, `118 ↦ "1.18"`). -/
def fmt2 (n : Nat) : String :=
  let ip := n / 100
  let fr := n % 100
  if fr = 0 then toString ip ++ ".0"
  else if fr % 10 = 0 then toString ip ++ "." ++ toString (fr / 10)
  else if fr < 10 then toString ip ++ ".0" ++ toString fr
  else toString ip ++ "." ++ toString fr

/-- Exact base-1024 integer logarithm, embedding
`int(math.floor(math.log(size_bytes, 1024)))` of `convertSize`.  Written as
a comparison chain so that the kernel can evaluate it on any concrete input
below `1024 ^ 9`; the theorem `logIndex_eq_floor` below proves it is the
floor logarithm on every bracketed input.

Faithfulness to the doubles: the float computation agrees with the exact
floor for every `b < 1024 ^ 4` (there the distance of `log(b, 1024)` to
the nearest integer exceeds the rounding error of the double computation
by more than an order of magnitude, the worst case being `1024 ^ 4 ± 1`)
but CPython rounds up to the next index on narrow bands just below
`1024 ^ k` for `k ≥ 5` (e.g. `1024 ^ 6 - 1` renders as `"1.0 EB"` and
`1024 ^ 9 - 1` raises `IndexError`).  Theorems below therefore assert the
selected index only for `b < 1024 ^ 4`, assert that no `IndexError` is
raised only for `b < 1024 ^ 8` (where even an index bumped by one stays
inside the table), and place the IndexError counterexample at `2 ^ 95`,
whose logarithm `≈ 9.5` floors to 9 under the doubles as well. -/
def logIndex (b : Nat) : Nat :=
  if b < 1024 then 0
  else if b < 1024 ^ 2 then 1
  else if b < 1024 ^ 3 then 2
  else if b < 1024 ^ 4 then 3
  else if b < 1024 ^ 5 then 4
  else if b < 1024 ^ 6 then 5
  else if b < 1024 ^ 7 then 6
  else if b < 1024 ^ 8 then 7
  else if b < 1024 ^ 9 then 8
  else 9 + Nat.log 1024 (b / 1024 ^ 9)

/-- Embeds `convertSize` (munin_vt.py lines 154-167).  The unit index is
`int(math.floor(math.log(size_bytes, 1024)))`, embedded as the exact floor
logarithm `logIndex` (see its comment for the bands where the doubles
diverge and how the theorems stay inside the faithful ranges).  Indexing
the 9-element `size_name` tuple with an index ≥ 9 raises `IndexError` in
Python; this is embedded as `none`. -/
def convertSize (size_bytes : Nat) : Option String :=
  if size_bytes = 0 then some "0B"
  else
    let i := logIndex size_bytes
    match size_name.get? i with
    | none => none
    | some unit => some (fmt2 (pyRound2Scaled size_bytes (1024 ^ i)) ++ " " ++ unit)

/-- Left-pads the decimal rendering of `n` with zeros to two digits
(strftime's `%m`/`%d`/`%H`/`%M`/`%S`). -/
def pad2 (n : Nat) : String :=
  if n < 10 then "0" ++ toString n else toString n

/-- Left-pads the decimal rendering of `n` with zeros to four digits
(strftime's `%Y`). -/
def pad4 (n : Nat) : String :=
  if n < 10 then "000" ++ toString n
  else if n < 100 then "00" ++ toString n
  else if n < 1000 then "0" ++ toString n
  else toString n

/-- Converts a count of days since 1970-01-01 into a proleptic Gregorian
civil date (year, month, day); the standard exact algorithm underlying
`datetime.utcfromtimestamp`. -/
def civilFromDays (z0 : Int) : Int × Nat × Nat :=
  let z := z0 + 719468
  let era := Int.fdiv z 146097
  let doe := (z - era * 146097).toNat
  let yoe := (doe - doe / 1460 + doe / 36524 - doe / 146096) / 365
  let y := (yoe : Int) + era * 400
  let doy := doe - (365 * yoe + yoe / 4 - yoe / 100)
  let mp := (5 * doy + 2) / 153
  let d := doy - (153 * mp + 2) / 5 + 1
  let m := if mp < 10 then mp + 3 else mp - 9
  (if m ≤ 2 then y + 1 else y, m, d)

/-- Embeds `datetime.utcfromtimestamp(ts).strftime("%Y-%m-%d %H:%M:%S")`
(munin_vt.py lines 236-238 and 298-300).  `utcfromtimestamp` raises
`ValueError` for timestamps outside the representable years 1..9999, that
is outside `[-62135596800, 253402300799]` (the timestamps of
0001-01-01 00:00:00 and 9999-12-31 23:59:59); this is embedded as
`none`. -/
def formatTimestamp (ts : Int) : Option String :=
  if ts < -62135596800 ∨ 253402300799 < ts then none
  else
    let days := Int.fdiv ts 86400
    let secs := (ts - days * 86400).toNat
    let ymd := civilFromDays days
    some (pad4 ymd.1.toNat ++ "-" ++ pad2 ymd.2.1 ++ "-" ++ pad2 ymd.2.2 ++ " " ++
      pad2 (secs / 3600) ++ ":" ++ pad2 (secs % 3600 / 60) ++ ":" ++ pad2 (secs % 60))

/-- The normalized record produced by the pipeline.  Baseline fields mirror
`getEmptyInfo` (munin_vt.py lines 170-196); fields that `getEmptyInfo` does
not populate and that later code may add to the dictionary (`md5`, `sha1`,
`sha256`, `total`, `matching_rule`, `comments`, `commenter`) are
`Option`-typed, `none` meaning the key is absent.  `filesize` starts as the
integer `0` in the source and is replaced by a `convertSize` string; the
embedding uses `none` for the initial integer default. -/
structure Info where
  hash : String
  result : String
  virus : String
  last_submitted : String
  first_submitted : String
  filenames : String
  filetype : String
  rating : String
  positives : Nat
  imphash : String
  harmless : Bool
  revoked : Bool
  signed : Bool
  expired : Bool
  mssoft : Bool
  vendor_results : List (String × String)
  signer : String
  vt_queried : Bool
  tags : List String
  copyright : String
  description : String
  times_submitted : Int
  reputation : Int
  filesize : Option String
  md5 : Option String
  sha1 : Option String
  sha256 : Option String
  total : Option Nat
  matching_rule : Option String
  comments : Option Nat
  commenter : Option (List String)
deriving DecidableEq

/-- Embeds `getEmptyInfo` (munin_vt.py lines 170-196). -/
def getEmptyInfo : Info where
  hash := "-"
  result := "- / -"
  virus := "-"
  last_submitted := "-"
  first_submitted := "-"
  filenames := "-"
  filetype := "-"
  rating := "unknown"
  positives := 0
  imphash := "-"
  harmless := false
  revoked := false
  signed := false
  expired := false
  mssoft := false
  vendor_results := []
  signer := "-"
  vt_queried := true
  tags := []
  copyright := "-"
  description := "-"
  times_submitted := 0
  reputation := 0
  filesize := none
  md5 := none
  sha1 := none
  sha256 := none
  total := none
  matching_rule := none
  comments := none
  commenter := none

/-- Embeds the `"exiftool"` sub-mapping of a sample's attributes. -/
structure ExifToolData where
  LegalCopyright : Option String
  FileDescription : Option String
deriving DecidableEq

/-- Embeds the `"pe_info"` sub-mapping of a sample's attributes. -/
structure PeInfoData where
  imphash : Option String
deriving DecidableEq

/-- Embeds the `"signature_info"` sub-mapping of a sample's attributes.
`signers` and `verified` are strings in the v3 API. -/
structure SignatureInfoData where
  signers : Option String
  verified : Option String
deriving DecidableEq

/-- Embeds the `"last_analysis_stats"` sub-mapping; each counter key may be
absent. -/
structure AnalysisStats where
  malicious : Option Nat
  suspicious : Option Nat
  undetected : Option Nat
  harmless : Option Nat
deriving DecidableEq

/-- Embeds the `"attributes"` sub-mapping of a raw sample payload.  Every
field is `Option`-typed: `none` models the key being absent, so that a
direct `sample_info["attributes"][key]` access raises `KeyError`.
`last_analysis_results` is the `"last_analysis_results"` mapping as an
association list in insertion order, each vendor mapped to its `"result"`
value (`none` embeds JSON `null`, which is falsy). -/
structure RawAttributes where
  names : Option (List String)
  meaningful_name : Option String
  type_description : Option String
  size : Option Nat
  tags : Option (List String)
  first_submission_date : Option Int
  times_submitted : Option Int
  reputation : Option Int
  exiftool : Option ExifToolData
  pe_info : Option PeInfoData
  signature_info : Option SignatureInfoData
  md5 : Option String
  sha1 : Option String
  sha256 : Option String
  last_analysis_stats : Option AnalysisStats
  last_submission_date : Option Int
  last_analysis_results : Option (List (String × Option String))
deriving DecidableEq

/-- A `RawAttributes` value with every key absent. -/
def emptyAttrs : RawAttributes where
  names := none
  meaningful_name := none
  type_description := none
  size := none
  tags := none
  first_submission_date := none
  times_submitted := none
  reputation := none
  exiftool := none
  pe_info := none
  signature_info := none
  md5 := none
  sha1 := none
  sha256 := none
  last_analysis_stats := none
  last_submission_date := none
  last_analysis_results := none

/-- Embeds one raw sample payload (`sample_info`): a mapping whose
`"attributes"` key may be absent. -/
structure RawSample where
  attributes : Option RawAttributes
deriving DecidableEq

/-- Runs the continuation `k` on the result of a step when the step
succeeded, and returns the record assembled so far when the step raised:
the control flow of the `try/except/finally: return info` block of
`processVirustotalSampleInfo`. -/
def pipe (i : Info) (s : Option Info) (k : Info → Info) : Info :=
  match s with
  | none => i
  | some j => k j

/-- Embeds munin_vt.py lines 213-228: file-name extraction.  Raises
(returns `none`) exactly when the `"names"` key is absent.  A present
`"meaningful_name"` is promoted to the front, removing its duplicate
occurrence (`list.remove` removes the first occurrence and is a no-op
here when absent, since it is guarded by an `in` test). -/
def stepNames (a : RawAttributes) (i : Info) : Option Info :=
  a.names.map fun ns =>
    let base := uniqList (ns.map get_crossplatfrom_basename)
    let named :=
      match a.meaningful_name with
      | none => base
      | some mn0 =>
        let mn := get_crossplatfrom_basename mn0
        mn :: base.erase mn
    { i with filenames := strMapChar ';' '_' (String.intercalate ", " named) }

/-- Embeds munin_vt.py line 230: `info["filetype"] = ...["type_description"]`. -/
def stepFiletype (a : RawAttributes) (i : Info) : Option Info :=
  a.type_description.map fun td => { i with filetype := td }

/-- Embeds munin_vt.py line 232: `info["filesize"] = convertSize(...["size"])`.
Raises when `"size"` is absent or when `convertSize` itself raises. -/
def stepFilesize (a : RawAttributes) (i : Info) : Option Info :=
  a.size.bind fun n => (convertSize n).map fun s => { i with filesize := some s }

/-- Embeds munin_vt.py line 234: `info["tags"] = ...["tags"]`. -/
def stepTags (a : RawAttributes) (i : Info) : Option Info :=
  a.tags.map fun ts => { i with tags := ts }

/-- Embeds munin_vt.py lines 236-238: first submission timestamp.  Raises
when the `"first_submission_date"` key is absent or when the timestamp is
outside the range `datetime.utcfromtimestamp` accepts. -/
def stepFirstSubmitted (a : RawAttributes) (i : Info) : Option Info :=
  a.first_submission_date.bind fun ts =>
    (formatTimestamp ts).map fun s => { i with first_submitted := s }

/-- Embeds munin_vt.py line 240: times submitted. -/
def stepTimesSubmitted (a : RawAttributes) (i : Info) : Option Info :=
  a.times_submitted.map fun n => { i with times_submitted := n }

/-- Embeds munin_vt.py line 242: reputation. -/
def stepReputation (a : RawAttributes) (i : Info) : Option Info :=
  a.reputation.map fun n => { i with reputation := n }

/-- Embeds munin_vt.py lines 245-256 (the Exiftool block).  Never raises.
Faithful quirk: `FileDescription` is only read inside the
`"LegalCopyright" in ...` guard, so a description without a copyright is
ignored. -/
def stepExifTool (a : RawAttributes) (i : Info) : Info :=
  match a.exiftool with
  | none => i
  | some e =>
    match e.LegalCopyright with
    | none => i
    | some c =>
      let i := { i with copyright := c }
      match e.FileDescription with
      | none => i
      | some d => { i with description := d }

/-- Embeds munin_vt.py lines 258-261 (the PE-info block).  Never raises. -/
def stepPeInfo (a : RawAttributes) (i : Info) : Info :=
  match a.pe_info with
  | none => i
  | some p =>
    match p.imphash with
    | none => i
    | some h => { i with imphash := h }

/-- Embeds munin_vt.py lines 263-274 (the signature block).  Never raises.
`signed` requires the exact value `"Signed"`, `revoked`/`expired` are
substring tests on the same `verified` value. -/
def stepSignature (a : RawAttributes) (i : Info) : Info :=
  match a.signature_info with
  | none => i
  | some s =>
    let i1 :=
      match s.signers with
      | none => i
      | some sg => { i with signer := sg }
    match s.verified with
    | none => i1
    | some v =>
      let i2 := if v = "Signed" then { i1 with signed := true } else i1
      let i3 := if strContains "Revoked" v then { i2 with revoked := true } else i2
      if strContains "Expired" v then { i3 with expired := true } else i3

/-- Embeds munin_vt.py line 277: md5. -/
def stepMd5 (a : RawAttributes) (i : Info) : Option Info :=
  a.md5.map fun h => { i with md5 := some h }

/-- Embeds munin_vt.py line 278: sha1. -/
def stepSha1 (a : RawAttributes) (i : Info) : Option Info :=
  a.sha1.map fun h => { i with sha1 := some h }

/-- Embeds munin_vt.py line 279: sha256. -/
def stepSha256 (a : RawAttributes) (i : Info) : Option Info :=
  a.sha256.map fun h => { i with sha256 := some h }

/-- Embeds munin_vt.py lines 281-284: `positives = malicious + suspicious`.
Raises when the stats mapping or either counter is absent. -/
def stepPositives (a : RawAttributes) (i : Info) : Option Info :=
  a.last_analysis_stats.bind fun st =>
    st.malicious.bind fun m =>
      st.suspicious.map fun su => { i with positives := m + su }

/-- Embeds munin_vt.py lines 285-290: `total = undetected + malicious +
suspicious + harmless`.  Raises when any of the four counters is absent. -/
def stepTotal (a : RawAttributes) (i : Info) : Option Info :=
  a.last_analysis_stats.bind fun st =>
    st.undetected.bind fun u =>
      st.malicious.bind fun m =>
        st.suspicious.bind fun su =>
          st.harmless.map fun h => { i with total := some (u + m + su + h) }

/-- Embeds munin_vt.py lines 291-296: the rating `if/elif/else` on
`info["positives"]`.  Never raises. -/
def stepRating (i : Info) : Info :=
  { i with
    rating :=
      if i.positives = 0 then "clean"
      else if i.positives ≤ 10 then "suspicious"
      else "malicious" }

/-- Embeds munin_vt.py lines 298-300: last submission timestamp.  Raises
when the `"last_submission_date"` key is absent or when the timestamp is
outside the range `datetime.utcfromtimestamp` accepts. -/
def stepLastSubmitted (a : RawAttributes) (i : Info) : Option Info :=
  a.last_submission_date.bind fun ts =>
    (formatTimestamp ts).map fun s => { i with last_submitted := s }

/-- Embeds the vendor loop of munin_vt.py lines 302-325 once `scans` has
been read.  `vendor_results` is reset first (line 304).  `VENDORS[0]`
raises `IndexError` when the vendor filter list is empty, which aborts the
block there (the reset map is kept).  A vendor's result populates the
virus-name list only when it is truthy (present, non-`null` and non-empty). -/
def stepVendors (VENDORS : List String) (scans : List (String × Option String)) (i : Info) : Info :=
  let i := { i with vendor_results := [] }
  match VENDORS.head? with
  | none => i
  | some v0 =>
    let loop_vendors := if v0 = "ALL" then scans.map Prod.fst else VENDORS
    let acc := loop_vendors.foldl
      (fun (acc : List (String × String) × List String) vendor =>
        match scans.find? (fun p => p.1 == vendor) with
        | none => (acc.1 ++ [(vendor, "-")], acc.2)
        | some p =>
          match p.2 with
          | none => (acc.1 ++ [(vendor, "-")], acc.2)
          | some res =>
            if res = "" then (acc.1 ++ [(vendor, "-")], acc.2)
            else (acc.1 ++ [(vendor, res)], acc.2 ++ [vendor ++ ": " ++ res]))
      ([], [])
    let i := { i with vendor_results := acc.1 }
    if acc.2.isEmpty then i else { i with virus := String.intercalate " / " acc.2 }

/-- Embeds munin_vt.py line 302 together with the vendor loop: raises
exactly when `"last_analysis_results"` is absent. -/
def stepVirus (a : RawAttributes) (VENDORS : List String) (i : Info) : Option Info :=
  a.last_analysis_results.map fun scans => stepVendors VENDORS scans i

/-- Embeds munin_vt.py lines 281-325: the AV-stats / rating / last
submission / virus-name tail of the `try` block, starting at the first
access to `"last_analysis_stats"`. -/
def statsTail (a : RawAttributes) (VENDORS : List String) (i : Info) : Info :=
  pipe i (stepPositives a i) fun i =>
  pipe i (stepTotal a i) fun i =>
  pipe i (some (stepRating i)) fun i =>
  pipe i (stepLastSubmitted a i) fun i =>
  pipe i (stepVirus a VENDORS i) fun i => i

/-- Embeds the body of the `try` block of `processVirustotalSampleInfo`
(munin_vt.py lines 212-325) on a present `"attributes"` mapping: the steps
run in source order; the first raising step aborts the rest and the record
assembled so far is returned (`finally: return info`).  The three guarded
blocks and the rating assignment never raise and are threaded through as
always-successful steps. -/
def processAttributes (a : RawAttributes) (VENDORS : List String) (i0 : Info) : Info :=
  pipe i0 (stepNames a i0) fun i =>
  pipe i (stepFiletype a i) fun i =>
  pipe i (stepFilesize a i) fun i =>
  pipe i (stepTags a i) fun i =>
  pipe i (stepFirstSubmitted a i) fun i =>
  pipe i (stepTimesSubmitted a i) fun i =>
  pipe i (stepReputation a i) fun i =>
  pipe i (some (stepExifTool a i)) fun i =>
  pipe i (some (stepPeInfo a i)) fun i =>
  pipe i (some (stepSignature a i)) fun i =>
  pipe i (stepMd5 a i) fun i =>
  pipe i (stepSha1 a i) fun i =>
  pipe i (stepSha256 a i) fun i =>
  statsTail a VENDORS i

/-- Embeds `processVirustotalSampleInfo` (munin_vt.py lines 203-332).
`VENDORS` is the vendor filter list (`["ALL"]` in the source's default;
repository callers pass a list). -/
def processVirustotalSampleInfo (sample_info : RawSample) (VENDORS : List String) : Info :=
  let info := getEmptyInfo
  match sample_info.attributes with
  | none => info
  | some a => processAttributes a VENDORS info

/-- Comment-enricher result: the dictionary
`{"comments": 0, "commenter": ["-"], "tags": []}` built and returned by
`searchVirustotalComments`. -/
structure CommentsInfo where
  comments : Nat
  commenter : List String
  tags : List String
deriving DecidableEq

/-- One entry of the comments response's `"data"` list: the author
identifier (`com["relationships"]["author"]["data"]["id"]`) and the
comment's tags. -/
structure CommentEntry where
  author : String
  tags : List String
deriving DecidableEq

/-- Scripted response of the comments endpoint.  `parsed = none` embeds a
body on which `json.loads` raises or whose `"data"` key is absent (both are
caught by the function's `except` and yield the default result). -/
structure CommentsResponse where
  status_code : Nat
  parsed : Option (List CommentEntry)
deriving DecidableEq

/-- Embeds `searchVirustotalComments` (munin_vt.py lines 335-361).  On a
non-ok response or any caught exception the default
`{comments: 0, commenter: ["-"], tags: []}` is returned; otherwise
`comments` is the entry count and, when there is at least one entry,
`commenter` is rebuilt as the author list while `tags` accumulates every
comment's tags. -/
def searchVirustotalComments (r : CommentsResponse) : CommentsInfo :=
  let info : CommentsInfo := { comments := 0, commenter := ["-"], tags := [] }
  if 400 ≤ r.status_code then info
  else
    match r.parsed with
    | none => info
    | some entries =>
      if entries.length > 0 then
        { comments := entries.length
          commenter := entries.map (fun c => c.author)
          tags := entries.flatMap (fun c => c.tags) }
      else
        { info with comments := entries.length }

/-- Embeds `info.update(searchVirustotalComments(...))` (munin_vt.py lines
78 and 136): the three keys of the enricher result overwrite the record's
`comments`, `commenter` and `tags` entries. -/
def mergeComments (i : Info) (c : CommentsInfo) : Info :=
  { i with comments := some c.comments, commenter := some c.commenter, tags := c.tags }

/-- Quota leaves of the user-endpoint body:
`...["data"]["attributes"]["quotas"]["api_requests_daily"/"api_requests_monthly"]["used"/"allowed"]`.
A `none` leaf embeds any missing key on its path. -/
structure QuotaBody where
  daily_used : Option Nat
  daily_allowed : Option Nat
  monthly_used : Option Nat
  monthly_allowed : Option Nat
deriving DecidableEq

/-- Scripted response of the user endpoint; `parsed = none` embeds a body
on which `json.loads` raises. -/
structure QuotaResponse where
  status_code : Nat
  parsed : Option QuotaBody
deriving DecidableEq

/-- Outcome of `checkVirustotalQuota`: the four-tuple, the bare `return`
(Python `None`) on a non-ok response, or an exception escaping to the
caller. -/
inductive QuotaOut where
  | tuple (dailyUsed dailyAllowed monthlyUsed monthlyAllowed : Nat)
  | noResult
  | raised
deriving DecidableEq

/-- Embeds `checkVirustotalQuota` (munin_vt.py lines 364-393).  On a non-ok
response the function prints and returns `None`.  When `json.loads` or a
quota-key access raises, control reaches the `except` block, which
evaluates the undefined name `debug` — a `NameError` that escapes to the
caller (and even without it, the fall-through `return info` evaluates the
undefined name `info`); both slips are embedded as `.raised`. -/
def checkVirustotalQuota (r : QuotaResponse) : QuotaOut :=
  if 400 ≤ r.status_code then .noResult
  else
    match r.parsed with
    | none => .raised
    | some q =>
      match q.daily_used, q.daily_allowed, q.monthly_used, q.monthly_allowed with
      | some a, some b, some c, some d => .tuple a b c d
      | _, _, _, _ => .raised

/-- Body of one file-report response: the optional `"error"`/`"code"`
string and the optional `"data"` payload. -/
structure VTReportBody where
  error_code : Option String
  data : Option RawSample
deriving DecidableEq

/-- Scripted response of the file-report endpoint; `parsed = none` embeds a
body on which `json.loads` raises (caught inside the loop, which then
retries). -/
structure VTResponse where
  status_code : Nat
  parsed : Option VTReportBody
deriving DecidableEq

/-- Outcome of `getVTInfo`: a record together with the number of request
attempts made and of quota sleeps performed, an uncaught exception, or the
scripted response list being exhausted while the `while` loop still wants
another request (embedding a run not terminating within the script). -/
inductive VTOut where
  | result (info : Info) (attempts sleeps : Nat)
  | raised
  | outOfScript
deriving DecidableEq

/-- Embeds the `while not success` loop of `getVTInfo` (munin_vt.py lines
39-61): each iteration consumes one scripted response; a body that does not
parse is a caught exception and the loop retries; a 429 status with
`vtwaitquota` sleeps once and retries; anything else leaves the loop with
the response in hand. -/
def vtLoop (vtwaitquota : Bool) : List VTResponse → Nat → Nat →
    Option (VTResponse × VTReportBody × Nat × Nat)
  | [], _, _ => none
  | r :: rest, attempts, sleeps =>
    match r.parsed with
    | none => vtLoop vtwaitquota rest (attempts + 1) sleeps
    | some body =>
      if r.status_code = 429 then
        if vtwaitquota then vtLoop vtwaitquota rest (attempts + 1) (sleeps + 1)
        else some (r, body, attempts + 1, sleeps)
      else some (r, body, attempts + 1, sleeps)

/-- Embeds `getVTInfo` (munin_vt.py lines 24-92).  After the request loop:
a non-ok response (429 included) yields the fully defaulted record with the
input hash; on an ok response the `"data"` payload is normalized (a missing
`"data"` key raises outside every `try` and escapes), comments are merged
when a strong hash is present, then the input hash is written and tags are
deduplicated.  The two legacy substring tests on the response object
(`"Probably harmless!"`/Microsoft catalogue) compare a string against the
response's byte chunks and never fire; they are omitted.  `VENDORS` embeds
the `vtallvendors` pass-through, `commentsResponse` the single comments
request a run can make. -/
def getVTInfo (hash : String) (responses : List VTResponse) (vtwaitquota : Bool)
    (commentsResponse : CommentsResponse) (VENDORS : List String) : VTOut :=
  match vtLoop vtwaitquota responses 0 0 with
  | none => .outOfScript
  | some (r, body, attempts, sleeps) =>
    if 400 ≤ r.status_code then
      .result { getEmptyInfo with hash := hash } attempts sleeps
    else
      match body.data with
      | none => .raised
      | some sample =>
        let info := processVirustotalSampleInfo sample VENDORS
        let info :=
          if info.sha256.isSome then mergeComments info (searchVirustotalComments commentsResponse)
          else info
        .result { info with hash := hash, tags := uniqList info.tags } attempts sleeps

/-- One entry of a retrohunt page's `"data"` list.  `has_error` embeds the
presence of the `"error"` key (such entries are skipped); `rule_name` is
`file["context_attributes"]["rule_name"]` (present on every match the API
returns; a missing key would raise uncaught and is not modelled). -/
structure RetroFile where
  id : String
  has_error : Bool
  sample : RawSample
  rule_name : String
deriving DecidableEq

/-- Body of one retrohunt page: its `"data"` entries and whether `"links"`
contains a `"next"` cursor. -/
structure RetroBody where
  data : List RetroFile
  next : Bool
deriving DecidableEq

/-- Scripted response of the retrohunt endpoint; `parsed = none` embeds a
non-JSON body (`json.loads` raises `ValueError`, which breaks the pager). -/
structure RetroResponse where
  status_code : Nat
  parsed : Option RetroBody
deriving DecidableEq

/-- Embeds the per-entry work of `getRetrohuntResults` (munin_vt.py lines
130-140): normalize, write the entry's own id as `hash`, copy the matching
rule, then either merge the comment enrichment or force
`{"comments": 0, "commenter": []}`, and deduplicate tags. -/
def processRetroFile (no_comments : Bool) (commentsFor : String → CommentsResponse)
    (VENDORS : List String) (f : RetroFile) : Info :=
  let i := processVirustotalSampleInfo f.sample VENDORS
  let i := { i with hash := f.id, matching_rule := some f.rule_name }
  let i :=
    if no_comments then { i with comments := some 0, commenter := some [] }
    else mergeComments i (searchVirustotalComments (commentsFor f.id))
  { i with tags := uniqList i.tags }

/-- Embeds the `while True` pagination loop of `getRetrohuntResults`
(munin_vt.py lines 106-150): each iteration consumes one scripted page; a
non-ok or non-JSON page breaks the loop keeping what was gathered; entries
carrying an `"error"` key are skipped; the loop continues only on a
`"next"` link.  An exhausted script (`[]` while a next page was wanted)
yields the records gathered so far, like the Python loop would after its
next response. -/
def retroPages (no_comments : Bool) (commentsFor : String → CommentsResponse)
    (VENDORS : List String) : List RetroResponse → List Info
  | [] => []
  | p :: rest =>
    if 400 ≤ p.status_code then []
    else
      match p.parsed with
      | none => []
      | some body =>
        (body.data.filter (fun f => !f.has_error)).map
            (processRetroFile no_comments commentsFor VENDORS) ++
          (if body.next then retroPages no_comments commentsFor VENDORS rest else [])

/-- Embeds `getRetrohuntResults` (munin_vt.py lines 100-151): the gathered
records sorted by `matching_rule` (Python's `sorted` is stable; insertion
sort with a non-strict comparison is the same stable sort). -/
def getRetrohuntResults (pages : List RetroResponse) (no_comments : Bool)
    (commentsFor : String → CommentsResponse) (VENDORS : List String) : List Info :=
  List.insertionSort
    (fun x y => x.matching_rule.getD "" ≤ y.matching_rule.getD "")
    (retroPages no_comments commentsFor VENDORS pages)

/-- Projection of a record onto the fields assigned by the stats / rating /
last-submission / virus-name tail of the normalizer (munin_vt.py lines
281-325): `(positives, total, rating, last_submitted, virus,
vendor_results)`. -/
def statsBlockFields (i : Info) :
    Nat × Option Nat × String × String × String × List (String × String) :=
  (i.positives, i.total, i.rating, i.last_submitted, i.virus, i.vendor_results)

/-- Attributes carrying only a `"names"` key. -/
def attrsNamesOnly : RawAttributes :=
  { emptyAttrs with names := some ["a.txt"] }

/-- Attributes with `"names"` and `"size"` but no `"type_description"`. -/
def attrsNoTypeDescription : RawAttributes :=
  { emptyAttrs with names := some ["x"], size := some 100 }

/-- `attrsNoTypeDescription` with the `"type_description"` key added. -/
def attrsWithTypeDescription : RawAttributes :=
  { attrsNoTypeDescription with type_description := some "ASCII text" }

/-- Attributes with every mandatory key of the sequential extraction
present, and AV stats `malicious = 12`, `suspicious = 1`,
`undetected = 30`, `harmless = 20`. -/
def attrsFull : RawAttributes :=
  { emptyAttrs with
    names := some ["mal.exe"]
    type_description := some "Win32 EXE"
    size := some 1536
    tags := some ["peexe"]
    first_submission_date := some 0
    times_submitted := some 2
    reputation := some (-5)
    md5 := some "m5"
    sha1 := some "s1"
    sha256 := some "s256"
    last_analysis_stats := some ⟨some 12, some 1, some 30, some 20⟩
    last_submission_date := some 1000000000
    last_analysis_results := some [("AVx", some "Mal.ware")] }

/-- Attributes whose normalization carries the tag `"x"` (names,
type_description and size are present so that extraction reaches the
`"tags"` step). -/
def attrsTagged : RawAttributes :=
  { emptyAttrs with
    names := some []
    type_description := some "t"
    size := some 1
    tags := some ["x"] }

/-- One scripted retrohunt page holding a single valid match whose sample
normalizes with tag `"x"`. -/
def retroPagesOne : List RetroResponse :=
  [⟨200, some ⟨[⟨"h1", false, ⟨some attrsTagged⟩, "r"⟩], false⟩⟩]

/-- A comments-endpoint response that never parses (its content is
irrelevant to runs that make no comment request). -/
def commentsUnused : CommentsResponse := ⟨200, none⟩

/-- Attributes of the claim C9 example: names
`["C:\\a\\b.exe", "b.exe"]` with meaningful name `"b.exe"`. -/
def attrsC9Example : RawAttributes :=
  { emptyAttrs with
    names := some ["C:\\a\\b.exe", "b.exe"]
    meaningful_name := some "b.exe" }

/-- Attributes with a meaningful name that is not among the names. -/
def attrsC9Promote : RawAttributes :=
  { emptyAttrs with
    names := some ["x.exe"]
    meaningful_name := some "y.exe" }

/-- Attributes with a semicolon inside a file name. -/
def attrsC9Semicolon : RawAttributes :=
  { emptyAttrs with names := some ["a;b.txt"] }

@[simp]
theorem pipe_none (i : Info) (k : Info → Info) : pipe i none k = i := rfl

@[simp]
theorem pipe_some (i x : Info) (k : Info → Info) : pipe i (some x) k = k x := rfl

/-- Chaining principle for one `pipe` level: a projection `f` preserved by
the step and by the continuation is preserved by the composite. -/
theorem pipe_key {α : Type _} (f : Info → α) {i0 : Info} (i : Info) (s : Option Info)
    (k : Info → Info) (hi : f i = f i0) (hs : ∀ j, s = some j → f j = f i)
    (hk : ∀ j, f j = f i0 → f (k j) = f i0) :
    f (pipe i s k) = f i0 := by
  cases s with
  | none => exact hi
  | some j => exact hk j ((hs j rfl).trans hi)

theorem stepNames_chr {a : RawAttributes} {i j : Info} (h : stepNames a i = some j) :
    ∃ v, j = { i with filenames := v } := by
  simp only [stepNames, Option.map_eq_some'] at h
  obtain ⟨ns, -, rfl⟩ := h
  exact ⟨_, rfl⟩

theorem stepFiletype_chr {a : RawAttributes} {i j : Info} (h : stepFiletype a i = some j) :
    ∃ v, j = { i with filetype := v } := by
  simp only [stepFiletype, Option.map_eq_some'] at h
  obtain ⟨td, -, rfl⟩ := h
  exact ⟨_, rfl⟩

theorem stepFilesize_chr {a : RawAttributes} {i j : Info} (h : stepFilesize a i = some j) :
    ∃ v, j = { i with filesize := v } := by
  simp only [stepFilesize, Option.bind_eq_some, Option.map_eq_some'] at h
  obtain ⟨n, -, s, -, rfl⟩ := h
  exact ⟨_, rfl⟩

theorem stepTags_chr {a : RawAttributes} {i j : Info} (h : stepTags a i = some j) :
    ∃ v, j = { i with tags := v } := by
  simp only [stepTags, Option.map_eq_some'] at h
  obtain ⟨ts, -, rfl⟩ := h
  exact ⟨_, rfl⟩

theorem stepFirstSubmitted_chr {a : RawAttributes} {i j : Info}
    (h : stepFirstSubmitted a i = some j) : ∃ v, j = { i with first_submitted := v } := by
  simp only [stepFirstSubmitted, Option.bind_eq_some, Option.map_eq_some'] at h
  obtain ⟨ts, -, s, -, rfl⟩ := h
  exact ⟨_, rfl⟩

theorem stepTimesSubmitted_chr {a : RawAttributes} {i j : Info}
    (h : stepTimesSubmitted a i = some j) : ∃ v, j = { i with times_submitted := v } := by
  simp only [stepTimesSubmitted, Option.map_eq_some'] at h
  obtain ⟨n, -, rfl⟩ := h
  exact ⟨_, rfl⟩

theorem stepReputation_chr {a : RawAttributes} {i j : Info}
    (h : stepReputation a i = some j) : ∃ v, j = { i with reputation := v } := by
  simp only [stepReputation, Option.map_eq_some'] at h
  obtain ⟨n, -, rfl⟩ := h
  exact ⟨_, rfl⟩

theorem stepExifTool_chr (a : RawAttributes) (i : Info) :
    ∃ c d, stepExifTool a i = { i with copyright := c, description := d } := by
  unfold stepExifTool
  repeat' split
  all_goals exact ⟨_, _, rfl⟩

theorem stepPeInfo_chr (a : RawAttributes) (i : Info) :
    ∃ v, stepPeInfo a i = { i with imphash := v } := by
  unfold stepPeInfo
  repeat' split
  all_goals exact ⟨_, rfl⟩

theorem stepSignature_chr (a : RawAttributes) (i : Info) :
    ∃ sg b1 b2 b3,
      stepSignature a i = { i with signer := sg, signed := b1, revoked := b2, expired := b3 } := by
  unfold stepSignature
  repeat' split
  all_goals exact ⟨_, _, _, _, rfl⟩

theorem stepMd5_chr {a : RawAttributes} {i j : Info} (h : stepMd5 a i = some j) :
    ∃ v, j = { i with md5 := v } := by
  simp only [stepMd5, Option.map_eq_some'] at h
  obtain ⟨x, -, rfl⟩ := h
  exact ⟨_, rfl⟩

theorem stepSha1_chr {a : RawAttributes} {i j : Info} (h : stepSha1 a i = some j) :
    ∃ v, j = { i with sha1 := v } := by
  simp only [stepSha1, Option.map_eq_some'] at h
  obtain ⟨x, -, rfl⟩ := h
  exact ⟨_, rfl⟩

theorem stepSha256_chr {a : RawAttributes} {i j : Info} (h : stepSha256 a i = some j) :
    ∃ v, j = { i with sha256 := v } := by
  simp only [stepSha256, Option.map_eq_some'] at h
  obtain ⟨x, -, rfl⟩ := h
  exact ⟨_, rfl⟩

theorem stepPositives_chr {a : RawAttributes} {i j : Info} (h : stepPositives a i = some j) :
    ∃ v, j = { i with positives := v } := by
  simp only [stepPositives, Option.bind_eq_some, Option.map_eq_some'] at h
  obtain ⟨st, -, m, -, su, -, rfl⟩ := h
  exact ⟨_, rfl⟩

theorem stepTotal_chr {a : RawAttributes} {i j : Info} (h : stepTotal a i = some j) :
    ∃ v, j = { i with total := v } := by
  simp only [stepTotal, Option.bind_eq_some, Option.map_eq_some'] at h
  obtain ⟨st, -, u, -, m, -, su, -, hh, -, rfl⟩ := h
  exact ⟨_, rfl⟩

theorem stepRating_chr (i : Info) : ∃ v, stepRating i = { i with rating := v } :=
  ⟨_, rfl⟩

theorem stepLastSubmitted_chr {a : RawAttributes} {i j : Info}
    (h : stepLastSubmitted a i = some j) : ∃ v, j = { i with last_submitted := v } := by
  simp only [stepLastSubmitted, Option.bind_eq_some, Option.map_eq_some'] at h
  obtain ⟨ts, -, s, -, rfl⟩ := h
  exact ⟨_, rfl⟩

theorem stepVendors_chr (V : List String) (scans : List (String × Option String)) (i : Info) :
    ∃ vr v, stepVendors V scans i = { i with vendor_results := vr, virus := v } := by
  unfold stepVendors
  dsimp only
  repeat' split
  all_goals exact ⟨_, _, rfl⟩

theorem stepVirus_chr {a : RawAttributes} {V : List String} {i j : Info}
    (h : stepVirus a V i = some j) :
    ∃ vr v, j = { i with vendor_results := vr, virus := v } := by
  simp only [stepVirus, Option.map_eq_some'] at h
  obtain ⟨scans, -, rfl⟩ := h
  exact stepVendors_chr V scans i

theorem statsTail_of_no_stats (a : RawAttributes) (V : List String) (i : Info)
    (h : a.last_analysis_stats = none) : statsTail a V i = i := by
  unfold statsTail
  rw [show stepPositives a i = none from by simp [stepPositives, h]]
  rfl

theorem statsTail_vq (a : RawAttributes) (V : List String) (i : Info) :
    (statsTail a V i).vt_queried = i.vt_queried := by
  unfold statsTail
  refine pipe_key (fun x => x.vt_queried) i _ _ rfl (fun j hj => ?_) (fun i1 h1 => ?_)
  · obtain ⟨v, rfl⟩ := stepPositives_chr hj; rfl
  · refine pipe_key (fun x => x.vt_queried) _ _ _ h1 (fun j hj => ?_) (fun i2 h2 => ?_)
    · obtain ⟨v, rfl⟩ := stepTotal_chr hj; rfl
    · refine pipe_key (fun x => x.vt_queried) _ _ _ h2 (fun j hj => ?_) (fun i3 h3 => ?_)
      · injection hj with hj'
        subst hj'
        obtain ⟨v, hv⟩ := stepRating_chr i2
        rw [hv]
      · refine pipe_key (fun x => x.vt_queried) _ _ _ h3 (fun j hj => ?_) (fun i4 h4 => ?_)
        · obtain ⟨v, rfl⟩ := stepLastSubmitted_chr hj; rfl
        · refine pipe_key (fun x => x.vt_queried) _ _ _ h4 (fun j hj => ?_) (fun i5 h5 => h5)
          obtain ⟨vr, v, rfl⟩ := stepVirus_chr hj; rfl

theorem processAttributes_statsBlockFields (a : RawAttributes) (V : List String) (i0 : Info)
    (h : a.last_analysis_stats = none) :
    statsBlockFields (processAttributes a V i0) = statsBlockFields i0 := by
  unfold processAttributes
  refine pipe_key statsBlockFields i0 _ _ rfl (fun j hj => ?_) (fun i1 h1 => ?_)
  · obtain ⟨v, rfl⟩ := stepNames_chr hj; rfl
  · refine pipe_key statsBlockFields _ _ _ h1 (fun j hj => ?_) (fun i2 h2 => ?_)
    · obtain ⟨v, rfl⟩ := stepFiletype_chr hj; rfl
    · refine pipe_key statsBlockFields _ _ _ h2 (fun j hj => ?_) (fun i3 h3 => ?_)
      · obtain ⟨v, rfl⟩ := stepFilesize_chr hj; rfl
      · refine pipe_key statsBlockFields _ _ _ h3 (fun j hj => ?_) (fun i4 h4 => ?_)
        · obtain ⟨v, rfl⟩ := stepTags_chr hj; rfl
        · refine pipe_key statsBlockFields _ _ _ h4 (fun j hj => ?_) (fun i5 h5 => ?_)
          · obtain ⟨v, rfl⟩ := stepFirstSubmitted_chr hj; rfl
          · refine pipe_key statsBlockFields _ _ _ h5 (fun j hj => ?_) (fun i6 h6 => ?_)
            · obtain ⟨v, rfl⟩ := stepTimesSubmitted_chr hj; rfl
            · refine pipe_key statsBlockFields _ _ _ h6 (fun j hj => ?_) (fun i7 h7 => ?_)
              · obtain ⟨v, rfl⟩ := stepReputation_chr hj; rfl
              · refine pipe_key statsBlockFields _ _ _ h7 (fun j hj => ?_) (fun i8 h8 => ?_)
                · injection hj with hj'
                  subst hj'
                  obtain ⟨c, d, he⟩ := stepExifTool_chr a i7
                  rw [he]
                  rfl
                · refine pipe_key statsBlockFields _ _ _ h8 (fun j hj => ?_) (fun i9 h9 => ?_)
                  · injection hj with hj'
                    subst hj'
                    obtain ⟨v, he⟩ := stepPeInfo_chr a i8
                    rw [he]
                    rfl
                  · refine pipe_key statsBlockFields _ _ _ h9 (fun j hj => ?_) (fun i10 h10 => ?_)
                    · injection hj with hj'
                      subst hj'
                      obtain ⟨sg, b1, b2, b3, he⟩ := stepSignature_chr a i9
                      rw [he]
                      rfl
                    · refine pipe_key statsBlockFields _ _ _ h10 (fun j hj => ?_) (fun i11 h11 => ?_)
                      · obtain ⟨v, rfl⟩ := stepMd5_chr hj; rfl
                      · refine pipe_key statsBlockFields _ _ _ h11 (fun j hj => ?_) (fun i12 h12 => ?_)
                        · obtain ⟨v, rfl⟩ := stepSha1_chr hj; rfl
                        · refine pipe_key statsBlockFields _ _ _ h12 (fun j hj => ?_) (fun i13 h13 => ?_)
                          · obtain ⟨v, rfl⟩ := stepSha256_chr hj; rfl
                          · rw [statsTail_of_no_stats a V i13 h]
                            exact h13

theorem processAttributes_vq (a : RawAttributes) (V : List String) (i0 : Info) :
    (processAttributes a V i0).vt_queried = i0.vt_queried := by
  unfold processAttributes
  refine pipe_key (fun x => x.vt_queried) i0 _ _ rfl (fun j hj => ?_) (fun i1 h1 => ?_)
  · obtain ⟨v, rfl⟩ := stepNames_chr hj; rfl
  · refine pipe_key (fun x => x.vt_queried) _ _ _ h1 (fun j hj => ?_) (fun i2 h2 => ?_)
    · obtain ⟨v, rfl⟩ := stepFiletype_chr hj; rfl
    · refine pipe_key (fun x => x.vt_queried) _ _ _ h2 (fun j hj => ?_) (fun i3 h3 => ?_)
      · obtain ⟨v, rfl⟩ := stepFilesize_chr hj; rfl
      · refine pipe_key (fun x => x.vt_queried) _ _ _ h3 (fun j hj => ?_) (fun i4 h4 => ?_)
        · obtain ⟨v, rfl⟩ := stepTags_chr hj; rfl
        · refine pipe_key (fun x => x.vt_queried) _ _ _ h4 (fun j hj => ?_) (fun i5 h5 => ?_)
          · obtain ⟨v, rfl⟩ := stepFirstSubmitted_chr hj; rfl
          · refine pipe_key (fun x => x.vt_queried) _ _ _ h5 (fun j hj => ?_) (fun i6 h6 => ?_)
            · obtain ⟨v, rfl⟩ := stepTimesSubmitted_chr hj; rfl
            · refine pipe_key (fun x => x.vt_queried) _ _ _ h6 (fun j hj => ?_) (fun i7 h7 => ?_)
              · obtain ⟨v, rfl⟩ := stepReputation_chr hj; rfl
              · refine pipe_key (fun x => x.vt_queried) _ _ _ h7 (fun j hj => ?_) (fun i8 h8 => ?_)
                · injection hj with hj'
                  subst hj'
                  obtain ⟨c, d, he⟩ := stepExifTool_chr a i7
                  rw [he]
                · refine pipe_key (fun x => x.vt_queried) _ _ _ h8 (fun j hj => ?_) (fun i9 h9 => ?_)
                  · injection hj with hj'
                    subst hj'
                    obtain ⟨v, he⟩ := stepPeInfo_chr a i8
                    rw [he]
                  · refine pipe_key (fun x => x.vt_queried) _ _ _ h9 (fun j hj => ?_) (fun i10 h10 => ?_)
                    · injection hj with hj'
                      subst hj'
                      obtain ⟨sg, b1, b2, b3, he⟩ := stepSignature_chr a i9
                      rw [he]
                    · refine pipe_key (fun x => x.vt_queried) _ _ _ h10 (fun j hj => ?_) (fun i11 h11 => ?_)
                      · obtain ⟨v, rfl⟩ := stepMd5_chr hj; rfl
                      · refine pipe_key (fun x => x.vt_queried) _ _ _ h11 (fun j hj => ?_) (fun i12 h12 => ?_)
                        · obtain ⟨v, rfl⟩ := stepSha1_chr hj; rfl
                        · refine pipe_key (fun x => x.vt_queried) _ _ _ h12 (fun j hj => ?_) (fun i13 h13 => ?_)
                          · obtain ⟨v, rfl⟩ := stepSha256_chr hj; rfl
                          · exact (statsTail_vq a V i13).trans h13

theorem process_vq (s : RawSample) (V : List String) :
    (processVirustotalSampleInfo s V).vt_queried = true := by
  unfold processVirustotalSampleInfo
  split
  · rfl
  · exact processAttributes_vq _ V getEmptyInfo

/-- C1 (corrected): when the `"attributes"` mapping is present but
`"last_analysis_stats"` is absent, the all-or-nothing behaviour holds for
the stats/virus-name block only — `positives`, `total`, `rating`,
`last_submitted`, `virus` and `vendor_results` all keep their defaults —
while fields extracted before that block are preserved, so the record is
not the fully-defaulted one in general (see the counterexample). -/
theorem claim_c1 (a : RawAttributes) (V : List String) (h : a.last_analysis_stats = none) :
    statsBlockFields (processVirustotalSampleInfo ⟨some a⟩ V) = statsBlockFields getEmptyInfo ∧
    statsBlockFields getEmptyInfo = (0, none, "unknown", "-", "-", []) :=
  ⟨processAttributes_statsBlockFields a V getEmptyInfo h, rfl⟩

/-- C1 counterexample: a sample with attributes `{names: ["a.txt"]}` and no
`"last_analysis_stats"` normalizes to a record with `filenames = "a.txt"`,
which is not the fully-defaulted record the claim promises. -/
theorem claim_c1_counterexample :
    attrsNamesOnly.last_analysis_stats = none ∧
    (processVirustotalSampleInfo ⟨some attrsNamesOnly⟩ ["ALL"]).filenames = "a.txt" ∧
    processVirustotalSampleInfo ⟨some attrsNamesOnly⟩ ["ALL"] ≠ getEmptyInfo := by
  decide

/-- C1 witness: the amended theorem applied to the concrete sample of the
counterexample. -/
theorem claim_c1_witness :
    attrsNamesOnly.last_analysis_stats = none ∧
    statsBlockFields (processVirustotalSampleInfo ⟨some attrsNamesOnly⟩ ["ALL"]) =
      statsBlockFields getEmptyInfo :=
  ⟨rfl, (claim_c1 attrsNamesOnly ["ALL"] rfl).1⟩

/-- C7 (confirmed): a raw sample without an `"attributes"` sub-mapping
normalizes to exactly the fully-defaulted record, with no error raised
(the embedding is total). -/
theorem claim_c7 (V : List String) :
    processVirustotalSampleInfo ⟨none⟩ V = getEmptyInfo := rfl

/-- C9 (confirmed): file-name normalization deduplicates by cross-platform
basename, promotes the meaningful name to the front removing its duplicate,
joins with `", "` and replaces semicolons by `"_"`.  The three conjuncts
instantiate each clause: the claim's own example, promotion of a
non-duplicate meaningful name with the `", "` join, and the semicolon
replacement. -/
theorem claim_c9 :
    (processVirustotalSampleInfo ⟨some attrsC9Example⟩ ["ALL"]).filenames = "b.exe" ∧
    (processVirustotalSampleInfo ⟨some attrsC9Promote⟩ ["ALL"]).filenames = "y.exe, x.exe" ∧
    (processVirustotalSampleInfo ⟨some attrsC9Semicolon⟩ ["ALL"]).filenames = "a_b.txt" := by
  decide

/-- C6 (confirmed): on an HTTP 429 response with `vtwaitquota` disabled,
`getVTInfo` terminates after that single attempt (`attempts = 1`), performs
no sleep (`sleeps = 0`) and returns the fully-defaulted record carrying the
input hash. -/
theorem claim_c6 (hash : String) (body : VTReportBody) (c : CommentsResponse)
    (V : List String) :
    getVTInfo hash [⟨429, some body⟩] false c V =
      VTOut.result { getEmptyInfo with hash := hash } 1 0 := rfl

/-- C3 (code bug): `checkVirustotalQuota` does return the four-tuple on a
parsed body and the bare-`return` no-result signal on a non-ok response,
but on a malformed body the `except` handler evaluates the undefined names
`debug` and `info`, so a `NameError` escapes to the caller instead of a
no-result signal. -/
theorem claim_c3 :
    checkVirustotalQuota ⟨200, some ⟨some 10, some 500, some 200, some 15500⟩⟩ =
      QuotaOut.tuple 10 500 200 15500 ∧
    checkVirustotalQuota ⟨403, none⟩ = QuotaOut.noResult ∧
    checkVirustotalQuota ⟨200, none⟩ = QuotaOut.raised := by
  decide

/-- C5 (corrected): extraction is sequential, not independently optional —
when `"type_description"` is absent the whole remainder of the extraction
is aborted and the returned record equals the fully-defaulted record
except possibly in `filenames` (the only field assigned before the failing
step); in particular a present `"size"` is not extracted. -/
theorem claim_c5 (a : RawAttributes) (V : List String) (h : a.type_description = none) :
    ∃ fn, processVirustotalSampleInfo ⟨some a⟩ V = { getEmptyInfo with filenames := fn } := by
  have main : ∀ i0 : Info, ∃ fn, processAttributes a V i0 = { i0 with filenames := fn } := by
    intro i0
    unfold processAttributes
    cases hsn : stepNames a i0 with
    | none => exact ⟨i0.filenames, rfl⟩
    | some j =>
      obtain ⟨fn, rfl⟩ := stepNames_chr hsn
      simp only [pipe_some]
      rw [show stepFiletype a { i0 with filenames := fn } = none from by
        simp [stepFiletype, h]]
      exact ⟨fn, rfl⟩
  exact main getEmptyInfo

/-- C5 counterexample: with `"type_description"` absent but `"size"`
present, `filesize` stays at its default; adding `"type_description"` to
the same sample makes the very same `"size"` extract — so the absence of
one optional sub-field does prevent extraction of the others. -/
theorem claim_c5_counterexample :
    attrsNoTypeDescription.type_description = none ∧
    attrsNoTypeDescription.size = some 100 ∧
    (processVirustotalSampleInfo ⟨some attrsNoTypeDescription⟩ ["ALL"]).filesize = none ∧
    (processVirustotalSampleInfo ⟨some attrsWithTypeDescription⟩ ["ALL"]).filesize =
      some "100.0 B" := by
  decide

/-- C5 witness: the amended theorem applied to a concrete sample lacking
`"type_description"`. -/
theorem claim_c5_witness :
    attrsNamesOnly.type_description = none ∧
    processVirustotalSampleInfo ⟨some attrsNamesOnly⟩ ["ALL"] =
      { getEmptyInfo with filenames := "a.txt" } := by
  refine ⟨rfl, ?_⟩
  obtain ⟨fn, hfn⟩ := claim_c5 attrsNamesOnly ["ALL"] rfl
  have h1 : (processVirustotalSampleInfo ⟨some attrsNamesOnly⟩ ["ALL"]).filenames = fn := by
    simpa using congrArg Info.filenames hfn
  have h2 : fn = "a.txt" := h1.symm.trans (by decide)
  rw [hfn, h2]

/-- `logIndex` is the floor base-1024 logarithm: on any input bracketed
between consecutive powers of 1024 it returns the exponent. -/
theorem logIndex_eq_floor {b i : Nat} (h1 : 1024 ^ i ≤ b) (h2 : b < 1024 ^ (i + 1)) :
    logIndex b = i := by
  have mono : ∀ {x y : Nat}, 1024 ^ x ≤ b → b < 1024 ^ y → x < y := by
    intro x y hx hy
    exact (Nat.pow_lt_pow_iff_right (by norm_num)).mp (lt_of_le_of_lt hx hy)
  rcases le_or_lt i 8 with hc | hc
  · unfold logIndex
    split_ifs with g0 g1 g2 g3 g4 g5 g6 g7 g8
    · have ha := mono h1 (show b < 1024 ^ 1 by simpa using g0)
      omega
    · have ha := mono h1 g1
      have hb := mono (show (1024 : Nat) ^ 1 ≤ b by simpa using not_lt.mp g0) h2
      omega
    · have ha := mono h1 g2
      have hb := mono (not_lt.mp g1) h2
      omega
    · have ha := mono h1 g3
      have hb := mono (not_lt.mp g2) h2
      omega
    · have ha := mono h1 g4
      have hb := mono (not_lt.mp g3) h2
      omega
    · have ha := mono h1 g5
      have hb := mono (not_lt.mp g4) h2
      omega
    · have ha := mono h1 g6
      have hb := mono (not_lt.mp g5) h2
      omega
    · have ha := mono h1 g7
      have hb := mono (not_lt.mp g6) h2
      omega
    · have ha := mono h1 g8
      have hb := mono (not_lt.mp g7) h2
      omega
    · have hb := mono (not_lt.mp g8) h2
      omega
  · have h9 : (1024 : Nat) ^ 9 ≤ b :=
      le_trans (Nat.pow_le_pow_right (by norm_num) (by omega)) h1
    have hnot : ∀ k : Nat, k ≤ 9 → ¬ b < 1024 ^ k := by
      intro k hk
      push_neg
      exact le_trans (Nat.pow_le_pow_right (by norm_num) hk) h9
    have hp : (0 : Nat) < 1024 ^ 9 := by positivity
    unfold logIndex
    rw [if_neg (by simpa using hnot 1 (by norm_num)), if_neg (hnot 2 (by norm_num)),
      if_neg (hnot 3 (by norm_num)), if_neg (hnot 4 (by norm_num)),
      if_neg (hnot 5 (by norm_num)), if_neg (hnot 6 (by norm_num)),
      if_neg (hnot 7 (by norm_num)), if_neg (hnot 8 (by norm_num)),
      if_neg (hnot 9 (by norm_num))]
    have hlog : Nat.log 1024 (b / 1024 ^ 9) = i - 9 := by
      apply Nat.log_eq_of_pow_le_of_lt_pow
      · rw [Nat.le_div_iff_mul_le hp]
        calc 1024 ^ (i - 9) * 1024 ^ 9 = 1024 ^ i := by
              rw [← pow_add]
              congr 1
              omega
          _ ≤ b := h1
      · rw [Nat.div_lt_iff_lt_mul hp]
        calc b < 1024 ^ (i + 1) := h2
          _ = 1024 ^ (i - 9 + 1) * 1024 ^ 9 := by
              rw [← pow_add]
              congr 1
              omega
    rw [hlog]
    omega

/-- In the embedding the size formatter returns a string for any byte
count below `1024 ^ 9`.  Theorems rely on this only for counts below
`1024 ^ 8`, where the source provably does not raise either: even a unit
index bumped by one by the double `math.log` stays inside the table. -/
theorem convertSize_isSome {n : Nat} (h : n < 1024 ^ 9) : ∃ s, convertSize n = some s := by
  have hle : logIndex n ≤ 8 := by
    unfold logIndex
    split_ifs <;> omega
  unfold convertSize
  split_ifs with h0
  · exact ⟨_, rfl⟩
  · obtain ⟨u, hu⟩ : ∃ u, size_name.get? (logIndex n) = some u :=
      ⟨_, List.get?_eq_get (show logIndex n < size_name.length by simp [size_name]; omega)⟩
    simp only [hu]
    exact ⟨_, rfl⟩

/-- C8 (corrected): zero maps to `"0B"`; for positive byte counts below
`1024 ^ 4` (unit index at most 3 — the bands where the IEEE-754 doubles of
the source compute the exact floor logarithm and the exact quotient, see
the comments on `logIndex` and `pyRound2Scaled`) the formatter selects the
unit at the floor base-1024 logarithm, rounds the scaled value to two
decimal places half-to-even and joins value and unit with a single space.
Above that, the double-precision `math.log` can select the unit one past
the floor logarithm on narrow bands just below `1024 ^ k` for `k ≥ 5`,
and once the selected index reaches 9 the code raises `IndexError`
instead of returning a string (see the counterexample). -/
theorem claim_c8 (b i : Nat) (h1 : 1024 ^ i ≤ b) (h2 : b < 1024 ^ (i + 1)) (hi : i < 4) :
    convertSize 0 = some "0B" ∧
    convertSize b = some (fmt2 (pyRound2Scaled b (1024 ^ i)) ++ " " ++ size_name.getD i "") := by
  refine ⟨rfl, ?_⟩
  have hb0 : b ≠ 0 := by
    have hp : (0 : Nat) < 1024 ^ i := by positivity
    omega
  have hlen : i < size_name.length := by
    simp only [size_name, List.length_cons, List.length_nil]
    omega
  unfold convertSize
  rw [if_neg hb0, logIndex_eq_floor h1 h2]
  dsimp only
  rw [List.get?_eq_get hlen,
    show size_name.getD i "" = size_name.get ⟨i, hlen⟩ by
      rw [List.getD_eq_getElem?_getD, ← List.get?_eq_getElem?, List.get?_eq_get hlen]
      rfl]

/-- C8 counterexample: at `2 ^ 95` bytes the floor logarithm is 9, one past
the end of the 9-entry unit tuple, and `convertSize` raises `IndexError`
(embedded as `none`) instead of returning a formatted string. -/
theorem claim_c8_counterexample : convertSize (2 ^ 95) = none := by
  have hlog : logIndex (2 ^ 95) = 9 :=
    logIndex_eq_floor (by norm_num) (by norm_num)
  unfold convertSize
  rw [if_neg (by norm_num), hlog]
  dsimp only
  rfl

/-- C8 witness: the amended theorem applied at 1536 bytes, whose unit index
is 1 and whose rendering is `"1.5 KB"`. -/
theorem claim_c8_witness :
    (1024 : Nat) ^ 1 ≤ 1536 ∧ (1536 : Nat) < 1024 ^ (1 + 1) ∧ (1 : Nat) < 4 ∧
    convertSize 1536 = some "1.5 KB" := by
  refine ⟨by norm_num, by norm_num, by norm_num, ?_⟩
  rw [(claim_c8 1536 1 (by norm_num) (by norm_num) (by norm_num)).2]
  decide

/-- When every mandatory key before the stats block is present (and the
size is inside the unit table), extraction reaches the stats tail. -/
theorem processAttributes_reaches (a : RawAttributes) (V : List String) (i0 : Info)
    (ns : List String) (hns : a.names = some ns)
    (td : String) (htd : a.type_description = some td)
    (sz : Nat) (hsz : a.size = some sz) (szs : String) (hcs : convertSize sz = some szs)
    (tg : List String) (htg : a.tags = some tg)
    (fs : Int) (hfs : a.first_submission_date = some fs)
    (fss : String) (hfss : formatTimestamp fs = some fss)
    (ts : Int) (hts : a.times_submitted = some ts)
    (rp : Int) (hrp : a.reputation = some rp)
    (m5 : String) (hm5 : a.md5 = some m5)
    (s1 : String) (hs1 : a.sha1 = some s1)
    (s2 : String) (hs2 : a.sha256 = some s2) :
    ∃ i : Info, processAttributes a V i0 = statsTail a V i := by
  unfold processAttributes
  simp only [stepNames, hns, stepFiletype, htd, stepFilesize, hsz, hcs, stepTags, htg,
    stepFirstSubmitted, hfs, hfss, stepTimesSubmitted, hts, stepReputation, hrp,
    stepMd5, hm5, stepSha1, hs1, stepSha256, hs2,
    Option.map_some', Option.some_bind, pipe_some]
  exact ⟨_, rfl⟩

/-- Timestamps inside the `datetime` range format to a string. -/
theorem formatTimestamp_isSome {ts : Int} (h1 : -62135596800 ≤ ts)
    (h2 : ts ≤ 253402300799) : ∃ s, formatTimestamp ts = some s := by
  unfold formatTimestamp
  rw [if_neg (by omega)]
  exact ⟨_, rfl⟩

/-- When the stats mapping carries all four counters, the stats tail sets
`positives = malicious + suspicious` and derives the rating from it —
whatever happens in the two steps after the rating assignment (a missing
or out-of-range last submission date, or a missing scan-result mapping,
aborts them but leaves `positives` and `rating` in place). -/
theorem statsTail_positives_rating (a : RawAttributes) (V : List String) (i : Info)
    (m su u hh : Nat)
    (hst : a.last_analysis_stats = some ⟨some m, some su, some u, some hh⟩) :
    (statsTail a V i).positives = m + su ∧
    (statsTail a V i).rating =
      (if m + su = 0 then "clean" else if m + su ≤ 10 then "suspicious" else "malicious") := by
  have hend : ∀ i2 : Info,
      ((pipe i2 (stepLastSubmitted a i2) fun i3 =>
        pipe i3 (stepVirus a V i3) fun i4 => i4).positives = i2.positives ∧
      (pipe i2 (stepLastSubmitted a i2) fun i3 =>
        pipe i3 (stepVirus a V i3) fun i4 => i4).rating = i2.rating) := by
    intro i2
    constructor
    · refine pipe_key (fun x => x.positives) i2 _ _ rfl (fun j hj => ?_) (fun i3 h3 => ?_)
      · obtain ⟨v, rfl⟩ := stepLastSubmitted_chr hj; rfl
      · refine pipe_key (fun x => x.positives) _ _ _ h3 (fun j hj => ?_) (fun i4 h4 => h4)
        obtain ⟨vr, v, rfl⟩ := stepVirus_chr hj; rfl
    · refine pipe_key (fun x => x.rating) i2 _ _ rfl (fun j hj => ?_) (fun i3 h3 => ?_)
      · obtain ⟨v, rfl⟩ := stepLastSubmitted_chr hj; rfl
      · refine pipe_key (fun x => x.rating) _ _ _ h3 (fun j hj => ?_) (fun i4 h4 => h4)
        obtain ⟨vr, v, rfl⟩ := stepVirus_chr hj; rfl
  unfold statsTail
  simp only [stepPositives, stepTotal, hst, Option.some_bind, Option.map_some', pipe_some,
    stepRating]
  rw [(hend _).1, (hend _).2]
  simp

/-- C2 (corrected): the rating/positives correspondence holds exactly for
records whose extraction reaches and completes the stats block — every
mandatory key before the block present with a value that extracts without
raising (size small enough for the unit table even after any floating
bump of the index, first submission date inside the `datetime` range) and
all four counters present.  Records for which extraction aborts earlier
keep `rating = "unknown"` (with `positives = 0`, or even a populated
`positives` when only the `total` counters are missing), so the
correspondence is not an invariant of every record the pipeline produces
(see the counterexample). -/
theorem claim_c2 (a : RawAttributes) (V : List String)
    (ns : List String) (hns : a.names = some ns)
    (td : String) (htd : a.type_description = some td)
    (sz : Nat) (hsz : a.size = some sz) (hsz8 : sz < 1024 ^ 8)
    (tg : List String) (htg : a.tags = some tg)
    (fs : Int) (hfs : a.first_submission_date = some fs)
    (hfs1 : -62135596800 ≤ fs) (hfs2 : fs ≤ 253402300799)
    (ts : Int) (hts : a.times_submitted = some ts)
    (rp : Int) (hrp : a.reputation = some rp)
    (m5 : String) (hm5 : a.md5 = some m5)
    (s1 : String) (hs1 : a.sha1 = some s1)
    (s2 : String) (hs2 : a.sha256 = some s2)
    (m su u hh : Nat)
    (hst : a.last_analysis_stats = some ⟨some m, some su, some u, some hh⟩) :
    (processVirustotalSampleInfo ⟨some a⟩ V).positives = m + su ∧
    ((processVirustotalSampleInfo ⟨some a⟩ V).rating = "clean" ↔
      (processVirustotalSampleInfo ⟨some a⟩ V).positives = 0) ∧
    ((processVirustotalSampleInfo ⟨some a⟩ V).rating = "malicious" ↔
      10 < (processVirustotalSampleInfo ⟨some a⟩ V).positives) ∧
    ((processVirustotalSampleInfo ⟨some a⟩ V).rating = "suspicious" ↔
      (1 ≤ (processVirustotalSampleInfo ⟨some a⟩ V).positives ∧
        (processVirustotalSampleInfo ⟨some a⟩ V).positives ≤ 10)) := by
  obtain ⟨szs, hcs⟩ := convertSize_isSome (lt_trans hsz8 (by norm_num))
  obtain ⟨fss, hfss⟩ := formatTimestamp_isSome hfs1 hfs2
  obtain ⟨i, hi⟩ := processAttributes_reaches a V getEmptyInfo ns hns td htd sz hsz szs hcs
    tg htg fs hfs fss hfss ts hts rp hrp m5 hm5 s1 hs1 s2 hs2
  have hmain : processVirustotalSampleInfo ⟨some a⟩ V = statsTail a V i := hi
  obtain ⟨hpos, hrat⟩ := statsTail_positives_rating a V i m su u hh hst
  rw [hmain, hpos, hrat]
  refine ⟨rfl, ?_, ?_, ?_⟩ <;> split_ifs with g1 g2
  · exact iff_of_true rfl g1
  · exact iff_of_false (by decide) g1
  · exact iff_of_false (by decide) g1
  · exact iff_of_false (by decide) (by omega)
  · exact iff_of_false (by decide) (by omega)
  · exact iff_of_true rfl (by omega)
  · exact iff_of_false (by decide) (by omega)
  · exact iff_of_true rfl (by omega)
  · exact iff_of_false (by decide) (by omega)

/-- C2 counterexample: the fully-defaulted record is produced by the
pipeline itself (here by `getVTInfo` on a 404 "not found" response); it has
`positives = 0` but `rating = "unknown"`, not `"clean"` — so the claimed
equivalence does not hold for every record the pipeline produces. -/
theorem claim_c2_counterexample :
    getVTInfo "h" [⟨404, some ⟨some "NotFoundError", none⟩⟩] false commentsUnused ["ALL"] =
      VTOut.result { getEmptyInfo with hash := "h" } 1 0 ∧
    ({ getEmptyInfo with hash := "h" } : Info).positives = 0 ∧
    ({ getEmptyInfo with hash := "h" } : Info).rating = "unknown" ∧
    ("unknown" : String) ≠ "clean" := by
  decide

/-- C2 witness: the amended theorem applied to a concrete sample with
`malicious = 12`, `suspicious = 1`. -/
theorem claim_c2_witness :
    (processVirustotalSampleInfo ⟨some attrsFull⟩ ["ALL"]).positives = 12 + 1 ∧
    ((processVirustotalSampleInfo ⟨some attrsFull⟩ ["ALL"]).rating = "malicious" ↔
      10 < (processVirustotalSampleInfo ⟨some attrsFull⟩ ["ALL"]).positives) := by
  have h := claim_c2 attrsFull ["ALL"] _ rfl _ rfl 1536 rfl (by norm_num) _ rfl _ rfl
    (by norm_num) (by norm_num) _ rfl _ rfl _ rfl _ rfl _ rfl 12 1 30 20 rfl
  exact ⟨h.1, h.2.2.1⟩

/-- With comment enrichment disabled, every record a retrohunt page run
gathers carries `comments = 0` and `commenter = []`. -/
theorem retroPages_no_comments_mem {cf : String → CommentsResponse} {V : List String}
    {r : Info} : ∀ {pages : List RetroResponse},
    r ∈ retroPages true cf V pages → r.comments = some 0 ∧ r.commenter = some [] := by
  intro pages
  induction pages with
  | nil => intro h; simp [retroPages] at h
  | cons p rest ih =>
    intro h
    simp only [retroPages] at h
    split at h
    · simp at h
    · split at h
      · simp at h
      · rw [List.mem_append] at h
        rcases h with h | h
        · rw [List.mem_map] at h
          obtain ⟨f, -, rfl⟩ := h
          constructor <;> simp [processRetroFile]
        · split at h
          · exact ih h
          · simp at h

/-- C4 (corrected): when comment enrichment is disabled,
`getRetrohuntResults` forces `comments = 0` and `commenter = []` on every
returned record — the empty list, not the Comment Enricher's `["-"]`
empty-result shape — and leaves `tags` as the (deduplicated) tags from
sample normalization rather than resetting them to `[]`. -/
theorem claim_c4 (pages : List RetroResponse) (commentsFor : String → CommentsResponse)
    (V : List String) (r : Info)
    (h : r ∈ getRetrohuntResults pages true commentsFor V) :
    r.comments = some 0 ∧ r.commenter = some [] := by
  unfold getRetrohuntResults at h
  exact retroPages_no_comments_mem
    ((List.perm_insertionSort _ (retroPages true commentsFor V pages)).mem_iff.mp h)

/-- C4 counterexample: a run over one page with one match (sample tag
`"x"`) and comments disabled yields a record with `commenter = []` and
`tags = ["x"]`, refuting the claimed forcing of the
`{comments: 0, commenter: ["-"], tags: []}` shape. -/
theorem claim_c4_counterexample :
    ((getRetrohuntResults retroPagesOne true (fun _ => commentsUnused) ["ALL"]).map
      (fun r => (r.comments, r.commenter, r.tags)) = [(some 0, some [], ["x"])]) ∧
    ¬ ∀ r ∈ getRetrohuntResults retroPagesOne true (fun _ => commentsUnused) ["ALL"],
        r.commenter = some ["-"] ∧ r.tags = [] := by
  decide

/-- C4 witness: the amended theorem applied to the record of the one-page
run. -/
theorem claim_c4_witness :
    (processRetroFile true (fun _ => commentsUnused) ["ALL"]
        ⟨"h1", false, ⟨some attrsTagged⟩, "r"⟩).comments = some 0 ∧
    (processRetroFile true (fun _ => commentsUnused) ["ALL"]
        ⟨"h1", false, ⟨some attrsTagged⟩, "r"⟩).commenter = some [] :=
  claim_c4 retroPagesOne (fun _ => commentsUnused) ["ALL"] _ (by decide)

/-- Every record built from one retrohunt entry keeps `vt_queried = true`. -/
theorem processRetroFile_vq (nc : Bool) (cf : String → CommentsResponse)
    (V : List String) (f : RetroFile) :
    (processRetroFile nc cf V f).vt_queried = true := by
  unfold processRetroFile
  dsimp only
  split <;> simp [mergeComments, process_vq]

/-- Every record a retrohunt page run gathers keeps `vt_queried = true`. -/
theorem retroPages_vq {nc : Bool} {cf : String → CommentsResponse} {V : List String}
    {r : Info} : ∀ {pages : List RetroResponse},
    r ∈ retroPages nc cf V pages → r.vt_queried = true := by
  intro pages
  induction pages with
  | nil => intro h; simp [retroPages] at h
  | cons p rest ih =>
    intro h
    simp only [retroPages] at h
    split at h
    · simp at h
    · split at h
      · simp at h
      · rw [List.mem_append] at h
        rcases h with h | h
        · rw [List.mem_map] at h
          obtain ⟨f, -, rfl⟩ := h
          exact processRetroFile_vq _ _ _ _
        · split at h
          · exact ih h
          · simp at h

/-- C10 (confirmed): `vt_queried` is an undocumented extra field of every
record the caller-facing operations produce, always equal to `True`:
`getEmptyInfo` sets it, normalization never touches it, and both
`getVTInfo` and `getRetrohuntResults` return records derived from those
two without modifying it. -/
theorem claim_c10 :
    getEmptyInfo.vt_queried = true ∧
    (∀ (s : RawSample) (V : List String), (processVirustotalSampleInfo s V).vt_queried = true) ∧
    (∀ (h : String) (rs : List VTResponse) (w : Bool) (c : CommentsResponse) (V : List String)
        (i : Info) (att slp : Nat),
      getVTInfo h rs w c V = VTOut.result i att slp → i.vt_queried = true) ∧
    (∀ (pages : List RetroResponse) (nc : Bool) (cf : String → CommentsResponse)
        (V : List String) (r : Info),
      r ∈ getRetrohuntResults pages nc cf V → r.vt_queried = true) := by
  refine ⟨rfl, process_vq, ?_, ?_⟩
  · intro h rs w c V i att slp heq
    unfold getVTInfo at heq
    split at heq
    · simp at heq
    · split at heq
      · cases heq
        rfl
      · split at heq
        · simp at heq
        · cases heq
          dsimp only
          split
          · simp [mergeComments, process_vq]
          · simp [process_vq]
  · intro pages nc cf V r h
    unfold getRetrohuntResults at h
    exact retroPages_vq ((List.perm_insertionSort _ _).mem_iff.mp h)

/-- C10 witness: the theorem's universally quantified parts applied to a
concrete failed lookup and to the record of a concrete retrohunt run. -/
theorem claim_c10_witness :
    Info.vt_queried { getEmptyInfo with hash := "h" } = true ∧
    Info.vt_queried (processRetroFile true (fun _ => commentsUnused) ["ALL"]
      ⟨"h1", false, ⟨some attrsTagged⟩, "r"⟩) = true := by
  constructor
  · exact claim_c10.2.2.1 "h" [⟨404, some ⟨some "NotFoundError", none⟩⟩] false
      commentsUnused ["ALL"] _ 1 0 (by decide)
  · exact claim_c10.2.2.2 retroPagesOne true (fun _ => commentsUnused) ["ALL"] _ (by decide)
